import Mathlib

/-!
Verification of the attendance-report generator (streamlit_app.py).

The program is a single-pass batch transform: it cleans uploaded attendance
rows, joins them against an embedded employee directory, computes worked
hours and overtime per row, and sorts the result by employee number and
date.  This file shallowly embeds the data model and the operations of that
transform and proves the specification claims about them.

Modelling conventions:
* A pandas cell that may hold a string or a non-string (NaN) value is
  modelled as `Option String`; `none` stands for the non-string case.
* Python `int` values are modelled by `ℤ`, Python `float` values by `ℚ`.
  Python `round` (banker's rounding) is modelled by round-half-to-even on
  the exact rational; the binary-float representation error of the source
  is not modelled.
* String processing is done on the underlying character lists so that every
  definition evaluates inside the kernel.
-/

/-- Characters stripped by Python `str.strip()`. -/
def isPyWS (c : Char) : Bool :=
  c = ' ' || c = '\t' || c = '\n' || c = '\r' || c = Char.ofNat 11 || c = Char.ofNat 12

/-- `str.strip()` on a character list. -/
def pyStripList (l : List Char) : List Char :=
  ((l.dropWhile isPyWS).reverse.dropWhile isPyWS).reverse

/-- Python `str.strip()`. -/
def pyStrip (s : String) : String :=
  String.mk (pyStripList s.data)

/-- Decimal digits, allowing the single-underscore separators accepted by
Python `int()` between two digits.  `none` when the list is not a valid
digit run.  The first character must be a digit; an underscore must be
followed by a digit. -/
def digitRun : List Char → Option Nat → Option Nat
  | [], acc => acc
  | c :: rest, acc =>
    if c.isDigit then
      digitRun rest (some ((acc.getD 0) * 10 + (c.toNat - 48)))
    else if c = '_' then
      match acc, rest with
      | some _, d :: _ => if d.isDigit then digitRun rest acc else none
      | _, _ => none
    else none

/-- Digit-sequence parser: nonempty, starts with a digit, underscores only
between digits. -/
def parseDigits (l : List Char) : Option Nat :=
  match l with
  | [] => none
  | c :: _ => if c.isDigit then digitRun l none else none

/-- Python `int(s)`: optional surrounding whitespace, optional sign, ASCII
digit run (Python also accepts other Unicode digits, which never occur in
this pipeline's data and are not modelled). -/
def pyInt (s : String) : Option Int :=
  match pyStripList s.data with
  | '-' :: rest => (parseDigits rest).map (fun n => -(n : Int))
  | '+' :: rest => (parseDigits rest).map (fun n => (n : Int))
  | l => (parseDigits l).map (fun n => (n : Int))

/-- Python `s.split(sep)` for a one-character separator, on character
lists: splits at every occurrence, keeping empty fields. -/
def splitOnChar (sep : Char) : List Char → List (List Char)
  | [] => [[]]
  | c :: rest =>
    let r := splitOnChar sep rest
    if c = sep then [] :: r
    else
      match r with
      | [] => [[c]]
      | h :: t => (c :: h) :: t

/-- Python `s.split(sep)` for a one-character separator. -/
def strSplit (s : String) (sep : Char) : List String :=
  (splitOnChar sep s.data).map String.mk

/-- Round half to even (Python `round`) on an exact rational. -/
def roundHalfEvenQ (x : ℚ) : ℤ :=
  let f := ⌊x⌋
  if x - f < 1 / 2 then f
  else if (1 : ℚ) / 2 < x - f then f + 1
  else if f % 2 = 0 then f else f + 1

/-- Round half to even of the fraction `p / q` (`q > 0`), in integer
arithmetic; used to evaluate `roundHalfEvenQ` on concrete inputs. -/
def roundHalfEvenInt (p q : ℤ) : ℤ :=
  let f := Int.ediv p q
  let r := Int.emod p q
  if 2 * r < q then f
  else if q < 2 * r then f + 1
  else if f % 2 = 0 then f else f + 1

/-- Python `round(x, 2)`. -/
def pyRound2 (x : ℚ) : ℚ :=
  (roundHalfEvenQ (x * 100) : ℚ) / 100

/-- Decimal digit character. -/
def digitChar (n : ℕ) : Char := Char.ofNat (48 + n)

/-- Most-significant-first decimal digits of `n`, with explicit fuel so the
definition is structurally recursive. -/
def natDigsAux : ℕ → ℕ → List Char
  | 0, _ => []
  | fuel + 1, n =>
    if n < 10 then [digitChar n]
    else natDigsAux fuel (n / 10) ++ [digitChar (n % 10)]

/-- Decimal digits of `n`. -/
def natDigs (n : ℕ) : List Char := natDigsAux (n + 1) n

/-- Left-pad a character list with zeros up to width `w`. -/
def zpad (w : ℕ) (l : List Char) : List Char :=
  List.replicate (w - l.length) '0' ++ l

/-- Python `f"{n:02d}"`: decimal rendering zero-padded to width 2; for a
negative value the sign counts towards the width. -/
def fmt02 (n : ℤ) : String :=
  if n < 0 then String.mk ('-' :: zpad 1 (natDigs n.natAbs))
  else String.mk (zpad 2 (natDigs n.toNat))

/-- Python `str(n)` for an `int`. -/
def intStr (n : ℤ) : String :=
  if n < 0 then String.mk ('-' :: natDigs n.natAbs)
  else String.mk (natDigs n.toNat)

/-- Total seconds of the `H:M[:S]` fields of a split time string: parses
the first two fields (hours, minutes) and the third (seconds) when there
are more than two fields; extra fields beyond the third are ignored, as in
the source, which indexes only parts 0, 1 and 2.  `none` when a consulted
field does not parse as an integer or there are fewer than two fields. -/
def timeSeconds : List String → Option Int
  | p0 :: p1 :: rest =>
    match pyInt p0, pyInt p1 with
    | some h, some m =>
      match rest with
      | [] => some (h * 3600 + m * 60)
      | p2 :: _ =>
        match pyInt p2 with
        | some s => some (h * 3600 + m * 60 + s)
        | none => none
    | _, _ => none
  | _ => none

/-- `calculate_hours` from streamlit_app.py.  Returns the worked hours as a
float (`round(diff_seconds / 3600, 2)`) together with the difference
formatted via `f"{hours:02d}:{minutes:02d}:{seconds:02d}"` using Python
floor division and modulo.  `(0.0, "00:00:00")` when an input is not a
string, is empty, is the `"-"` sentinel, has fewer than two `:`-separated
parts, or a consulted part fails `int()` (the `try/except` of the source).
-/
def calculate_hours (check_in check_out : Option String) : ℚ × String :=
  match check_in, check_out with
  | some ci, some co =>
    if ci = "-" ∨ co = "-" ∨ ci = "" ∨ co = "" then ((0 : ℚ), "00:00:00")
    else
      let in_parts := strSplit ci ':'
      let out_parts := strSplit co ':'
      if in_parts.length < 2 ∨ out_parts.length < 2 then ((0 : ℚ), "00:00:00")
      else
        match timeSeconds in_parts, timeSeconds out_parts with
        | some total_in, some total_out =>
          let diff := total_out - total_in
          (pyRound2 ((diff : ℚ) / 3600),
            fmt02 (Int.ediv diff 3600) ++ ":" ++
              fmt02 (Int.ediv (Int.emod diff 3600) 60) ++ ":" ++
              fmt02 (Int.emod diff 60))
        | _, _ => ((0 : ℚ), "00:00:00")
  | _, _ => ((0 : ℚ), "00:00:00")

/-- `calculate_total_minutes` from streamlit_app.py: `round(hours * 60)`. -/
def calculate_total_minutes (hours : ℚ) : ℤ :=
  roundHalfEvenQ (hours * 60)

/-- `calculate_extra_minutes` from streamlit_app.py: minutes beyond the
fixed 540-minute (9-hour) baseline. -/
def calculate_extra_minutes (total_minutes : ℤ) (standard_minutes : ℤ := 540) : ℤ :=
  if total_minutes ≤ standard_minutes then 0 else total_minutes - standard_minutes

/-- A raw uploaded attendance row.  `person_id` and `date` are the `Person
ID` and `Date` cells (`none` models a missing/NaN cell); `check_in` and
`check_out` are the values of `row.get('Check-In', '-')` and
`row.get('Check-out', '-')`, so a missing column is already the string
`"-"` and `none` models a non-string (NaN) cell. -/
structure RawRow where
  person_id : Option String
  date : Option String
  check_in : Option String
  check_out : Option String
  status : Option String
deriving DecidableEq, Repr

/-- Substring test on character lists (`needle` occurs inside `hay`),
modelling `Series.str.contains` with a pattern free of regex
metacharacters. -/
def isPrefixList : List Char → List Char → Bool
  | [], _ => true
  | _ :: _, [] => false
  | a :: as, b :: bs => a = b && isPrefixList as bs

def containsSub (needle : List Char) : List Char → Bool
  | [] => needle.isEmpty
  | c :: rest => isPrefixList needle (c :: rest) || containsSub needle rest

/-- The stray-header test of `clean_report_data`:
`.str.contains('Check-In Time')`. -/
def containsHeaderToken (s : String) : Bool :=
  containsSub "Check-In Time".data s.data

/-- The row filter mask of `clean_report_data`: `Person ID` non-null and
non-blank after stripping, not containing the header token, and `Date`
non-null and non-blank after stripping. -/
def keepRow (r : RawRow) : Bool :=
  match r.person_id, r.date with
  | some pid, some d =>
    pyStrip pid ≠ "" && !containsHeaderToken pid && pyStrip d ≠ ""
  | _, _ => false

/-- Removal of a single leading apostrophe:
`.str.replace("^'", "", regex=True)` (the anchored pattern can only match
once, at position 0). -/
def stripLeadQuote (s : String) : String :=
  match s.data with
  | c :: rest => if c = Char.ofNat 39 then String.mk rest else s
  | [] => s

/-- The per-row normalization of `clean_report_data`: only the `Person ID`
field changes. -/
def normRow (r : RawRow) : RawRow :=
  { r with person_id := r.person_id.map stripLeadQuote }

/-- `clean_report_data` from streamlit_app.py: filter by the validity mask,
then strip a leading apostrophe from the kept `Person ID`s. -/
def clean_report_data (rows : List RawRow) : List RawRow :=
  (rows.filter keepRow).map normRow

/-- One row of the employee directory embedded in
`get_employee_database`; `none` models a blank (NaN) `Person ID` cell. -/
structure DbRow where
  person_id : Option String
  employee_id : String
  employee_name : String
  department : String
deriving DecidableEq, Repr

/-- The employee directory embedded in `get_employee_database`
(streamlit_app.py lines 228-290), row by row. -/
def employee_db : List DbRow := [
  ⟨some "1000", "1000", "THASLEEM VP", "COO"⟩,
  ⟨some "1001", "1001", "SHABIL CHAKKOLAYIL", "CSO"⟩,
  ⟨some "S003", "TTQA003", "Abdul Shifas", "Pre-Sales"⟩,
  ⟨some "S004", "TTQA004", "Shameer Chundekattil Abu", "Technical"⟩,
  ⟨some "S006", "TTQA006", "Shyamraj Sasidharan", "Pre-Sales"⟩,
  ⟨some "S007", "TTQA007", "Jobin Therath Joseph", "Technical"⟩,
  ⟨some "S012", "TTQA012", "Maneesh Mani Koroththazha", "Procurement"⟩,
  ⟨some "S021", "TTQA021", "Kishanthan Thiyagarajan", "Technical"⟩,
  ⟨some "S027", "TTQA027", "Anoop Aniyan", "Finance and Accounts"⟩,
  ⟨none, "TTQA040", "Surendran Vinayagam Surendran", "Technical"⟩,
  ⟨some "S042", "TTQA042", "Shuhaib Muhammed Kutty", "Human Resources and Admin."⟩,
  ⟨some "S088", "TTQA088", "Ratheesh Ittikkatt Velayudhan", "Procurement"⟩,
  ⟨some "S101", "TTQA101", "Jishnu Neriathraparambil Shibu", "Technical"⟩,
  ⟨some "S118", "TTQA118", "Mohammed Nasfer Valoth", "Renewals - Licensing"⟩,
  ⟨some "S124", "TTQA124", "Shamsudheen Kalli Kuniyil", "Human Resources and Admin."⟩,
  ⟨some "S146", "TTQA146", "Muhammad Farash Kunhippurayil", "Technical"⟩,
  ⟨some "S151", "TTQA151", "Mohammed Ali Chelathoden Latif", "Pre-Sales"⟩,
  ⟨some "S160", "TTQA160", "Asharaf Naranath", "Finance and Accounts"⟩,
  ⟨some "S171", "TTQA171", "Nabil Jamal Vettikkal", "Sales"⟩,
  ⟨some "S173", "TTQA173", "Sreelaskshmi Pottekkatt Sudhi", "Marketing"⟩,
  ⟨some "S174", "TTQA174", "Irfan Kottukkal Ismail", "Support"⟩,
  ⟨some "TTQ200", "TTQA200", "Basheer Andanakathu Moidunni", "Human Resources and Admin."⟩,
  ⟨some "S102", "TTQA201", "Sumesh K Sami", "Design & Lighting"⟩,
  ⟨some "S203", "TTQA203", "Muhammad Musthafa", "Pre-Sales"⟩,
  ⟨some "S206", "TTQA207", "Niyas Vayalil Muhammad Ismail", "Human Resources and Admin."⟩,
  ⟨some "S221", "TTQA221", "Muhammad Hassan Malik", "Technical"⟩,
  ⟨some "TTQ219", "TTQA224", "Kirusanth Velayutham Anandarasa", "Technical"⟩,
  ⟨some "S225", "TTQA225", "Varun Puthan Purayil", "Technical"⟩,
  ⟨some "TTQ226", "TTQA226", "Yadhu Krishnan", "Design & Lighting"⟩,
  ⟨some "S214", "TTQA244", "Pranav Ponath Uthaman", "Design & Lighting"⟩,
  ⟨some "QA248", "TTQA248", "Muhammed Ali Jawahar Shajahan Naseela", "Support"⟩,
  ⟨some "QA250", "TTQA250", "Muhammad Abid Nasir", "Renewals - Licensing"⟩,
  ⟨some "S251", "TTQA251", "Shabin Ashif N. Parambil", "Human Resources and Admin."⟩,
  ⟨some "TTQ252", "TTQA252", "Nidhisha Chandran", "Finance and Accounts"⟩,
  ⟨some "TTQ253", "TTQA253", "Mohamad Kawwam", "Marketing"⟩,
  ⟨some "TTQ254", "TTQA254", "Rafiyath Rafeeque Moidu", "Pre-Sales"⟩,
  ⟨some "TTQ255", "TTQA255", "Mudhasar Olavakkott S", "Support"⟩,
  ⟨some "TTQ263", "TTQA263", "Rocky Rajan Varughese", "Procurement"⟩,
  ⟨some "TTQ219", "TTQA272", "Nawaz Shereef Kareem", "Procurement"⟩,
  ⟨some "TTQ274", "TTQA274", "Burhan Mohammad Walid Alhaffar", "Technical"⟩,
  ⟨some "TTQ275", "TTQA275", "Balagopal Venugopal Kanika", "Procurement"⟩,
  ⟨some "TTQ281", "TTQA281", "Allwyn Solomon Rajit Singh", "Support"⟩,
  ⟨some "TTQ285", "TTQA285", "Jino Jose", "Design & Lighting"⟩,
  ⟨some "TTQ286", "TTQA286", "Anish Kumar Murugan", "Technical"⟩,
  ⟨some "TTQ288", "TTQA288", "Zeeshan Ul Haq", "Pre-Sales"⟩,
  ⟨some "TTQ298", "TTQA298", "Afsal Veluthandi Madathummal", "Support"⟩,
  ⟨some "TTQ301", "TTQA301", "Aafaq Burhanuddin Tisekar", "Human Resources and Admin."⟩,
  ⟨some "TTQ302", "TTQA302", "Anshad Kelathum Parambil", "Finance and Accounts"⟩,
  ⟨some "TTQA303", "TTQA303", "Le Mogene De la Paz Tucker", "Human Resources and Admin."⟩,
  ⟨some "TTQA304", "TTQA304", "Nihad El Harch", "Sales"⟩,
  ⟨some "TTQA308", "TTQA308", "Mohammad Mamoon Mohammad Haroon", "Pre-Sales"⟩,
  ⟨some "TTQA309", "TTQA309", "Tiago Andre Pereira Reis", "Sales"⟩,
  ⟨some "TTQA310", "TTQA310", "Akhil Thoppil Aliyar", "Sales"⟩,
  ⟨some "TTQA311", "TTQA311", "Mohammed Muzzammil Pradanakkaar", "Sales"⟩,
  ⟨some "TTQA312", "TTQA312", "Abdallah Mohammed Abdelhakem Elkady", "Sales"⟩,
  ⟨some "TTQA313", "TTQA313", "Mohammed Osman", "Pre-Sales"⟩,
  ⟨none, "TTQA314", "Kamal Navas", "Pre-Sales"⟩,
  ⟨none, "TTQA316", "Suhail Thayyil", "HRA"⟩]

/-- The details stored per directory key. -/
structure EmpDetails where
  employee_id : String
  employee_name : String
  department : String
deriving DecidableEq, Repr

/-- The `(key, details)` pairs inserted into the `employee_mapping` dict, in
insertion order: rows whose `Person ID` is non-null and non-blank after
stripping, keyed by the stripped id. -/
def mappingEntries : List (String × EmpDetails) :=
  employee_db.filterMap (fun r =>
    match r.person_id with
    | some p =>
      if pyStrip p = "" then none
      else some (pyStrip p, ⟨r.employee_id, r.employee_name, r.department⟩)
    | none => none)

/-- Dict lookup in `employee_mapping`: repeated insertions overwrite, so the
binding is the last entry with the given key. -/
def employee_mapping (id : String) : Option EmpDetails :=
  (mappingEntries.reverse.find? (fun kv => kv.1 = id)).map (fun kv => kv.2)

/-- The non-blank keys of the directory, in order (used to state the
uniqueness claim). -/
def directoryKeys : List String := mappingEntries.map (fun kv => kv.1)

/-- Strict parse of a `YYYY-MM-DD` (or `Y-M-D`) date into its numeric
fields, validating month and day ranges including leap years; models the
date formats this pipeline feeds to `datetime.strptime(date_str,
'%Y-%m-%d')` and `pd.to_datetime` (whose failures are coerced to
none/NaT). -/
def daysInMonth (y m : ℕ) : ℕ :=
  if m = 2 then
    if y % 4 = 0 ∧ (y % 100 ≠ 0 ∨ y % 400 = 0) then 29 else 28
  else if m = 4 ∨ m = 6 ∨ m = 9 ∨ m = 11 then 30
  else 31

def allDigitsNat (s : String) : Option ℕ :=
  if s.data ≠ [] ∧ s.data.all Char.isDigit then
    some (s.data.foldl (fun acc c => acc * 10 + (c.toNat - 48)) 0)
  else none

def parseDateFields (s : String) : Option (ℕ × ℕ × ℕ) :=
  match strSplit s '-' with
  | [ys, ms, ds] =>
    match allDigitsNat ys, allDigitsNat ms, allDigitsNat ds with
    | some y, some m, some d =>
      if 1 ≤ m ∧ m ≤ 12 ∧ 1 ≤ d ∧ d ≤ daysInMonth y m then some (y, m, d)
      else none
    | _, _, _ => none
  | _ => none

/-- Chronological key of a parsed date: `y * 512 + m * 32 + d` is
order-isomorphic to the lexicographic (year, month, day) order because
`m ≤ 12` and `d ≤ 31`. -/
def dateSerial (s : String) : Option ℕ :=
  (parseDateFields s).map (fun f => f.1 * 512 + f.2.1 * 32 + f.2.2)

/-- Weekday names as produced by `strftime('%A')`, indexed with Sunday = 0
(Sakamoto's day-of-week algorithm). -/
def weekdayName (w : ℕ) : String :=
  match w with
  | 0 => "Sunday"
  | 1 => "Monday"
  | 2 => "Tuesday"
  | 3 => "Wednesday"
  | 4 => "Thursday"
  | 5 => "Friday"
  | 6 => "Saturday"
  | _ => ""

def sakamotoOffsets : List ℕ := [0, 3, 2, 5, 0, 3, 5, 1, 4, 6, 2, 4]

/-- `get_day_of_week` from streamlit_app.py: weekday name of a
`'%Y-%m-%d'` date string, `""` when parsing fails (the bare `except`),
including when the cell is not a string. -/
def get_day_of_week (date_cell : Option String) : String :=
  match date_cell with
  | none => ""
  | some s =>
    match parseDateFields s with
    | none => ""
    | some (y, m, d) =>
      let y' := if m < 3 then y - 1 else y
      weekdayName ((y' + y' / 4 - y' / 100 + y' / 400 +
        (sakamotoOffsets.getD (m - 1) 0) + d) % 7)

/-- One assembled report row (the dict built in the output loop).  The
trailing reserved columns are always empty strings. -/
structure OutRow where
  date : Option String
  day : String
  emp_no : String
  emp_name : String
  dept : String
  time_in : Option String
  time_out : Option String
  total_hours : String
  status : Option String
  extra_minutes : String
  new_intime : String
  new_outtime : String
  new_total_hours : String
  ot_ut : String
  remarks : String
  reason : String
  managers_comments : String
deriving DecidableEq, Repr

/-- The output dict assembled for one matched record. -/
def mkOutRow (r : RawRow) (ed : EmpDetails) : OutRow :=
  let check_in := r.check_in
  let check_out := r.check_out
  let hf := calculate_hours check_in check_out
  let total_minutes := calculate_total_minutes hf.1
  let extra_minutes := calculate_extra_minutes total_minutes
  { date := r.date
    day := get_day_of_week r.date
    emp_no := ed.employee_id
    emp_name := ed.employee_name
    dept := ed.department
    time_in := if check_in = some "-" then some "" else check_in
    time_out := if check_out = some "-" then some "" else check_out
    total_hours := hf.2
    status := r.status
    extra_minutes := intStr extra_minutes
    new_intime := ""
    new_outtime := ""
    new_total_hours := ""
    ot_ut := ""
    remarks := ""
    reason := ""
    managers_comments := "" }

/-- Python `str(cell)` for a possibly-NaN cell: `str(float('nan'))` is
`"nan"`. -/
def pyStr (c : Option String) : String :=
  match c with
  | some s => s
  | none => "nan"

/-- The output loop of streamlit_app.py: per cleaned row, look up the
stripped `Person ID` in the mapping; a miss skips the row (`continue`), a
hit emits the assembled output row. -/
def output_data (rows : List RawRow) : List OutRow :=
  rows.filterMap (fun r =>
    match employee_mapping (pyStrip (pyStr r.person_id)) with
    | none => none
    | some ed => some (mkOutRow r ed))

/-- Strict lexicographic comparison of character lists by code point
(Python / pandas string comparison). -/
def listLTb : List Char → List Char → Bool
  | [], [] => false
  | [], _ :: _ => true
  | _ :: _, [] => false
  | a :: as, b :: bs =>
    if a < b then true
    else if b < a then false
    else listLTb as bs

/-- Sort key order on NaT-coercible dates: NaT (`none`) sorts last
(`na_position='last'`). -/
def optLE : Option ℕ → Option ℕ → Bool
  | _, none => true
  | none, some _ => false
  | some x, some y => x.ble y

/-- The date sort key of an output row: `pd.to_datetime(df['DATE'],
errors='coerce')`. -/
def dateKey (r : OutRow) : Option ℕ :=
  r.date.bind dateSerial

/-- The lexicographic (employee number, parsed date) order used by
`output_df.sort_values(['NEW EMPLOYEE NO.', 'DATE'])`. -/
def reportLE (a b : OutRow) : Prop :=
  listLTb a.emp_no.data b.emp_no.data = true ∨
    (a.emp_no = b.emp_no ∧ optLE (dateKey a) (dateKey b) = true)

instance : DecidableRel reportLE := fun a b => by
  unfold reportLE; exact inferInstance

/-- The whole transform on the uploaded rows: clean, join, assemble, then
sort by employee number and parsed date.  `sort_values` is modelled by a
sort with respect to `reportLE`; the ordering facts proved about the result
hold for any list sorted by that key. -/
def generate_report (rows : List RawRow) : List OutRow :=
  List.insertionSort reportLE (output_data (clean_report_data rows))

/-- A non-negative `H:M:S` duration string: nonempty and made only of
decimal digits and `:` separators (a negative span would carry a `-`
sign). -/
def NonNegHMS (s : String) : Prop :=
  s.data ≠ [] ∧ ∀ c ∈ s.data, (c.isDigit = true ∨ c = ':')

instance (s : String) : Decidable (NonNegHMS s) := by
  unfold NonNegHMS; exact inferInstance

/-- The sanitizer's keep condition, as the spec words it: identifier and
date present and non-blank after trimming, and the identifier does not
contain the header token. -/
def keepPred (r : RawRow) : Prop :=
  ∃ pid d, r.person_id = some pid ∧ r.date = some d ∧
    pyStrip pid ≠ "" ∧ containsHeaderToken pid = false ∧ pyStrip d ≠ ""

/-- A time cell on which `calculate_hours` fails soft: missing (not a
string), empty, the `"-"` sentinel, or malformed (fewer than two
colon-separated parts, or an `H`/`M`/`S` part that does not parse as an
integer). -/
def BadTime (c : Option String) : Prop :=
  c = none ∨ c = some "" ∨ c = some "-" ∨
    ∃ s, c = some s ∧
      ((strSplit s ':').length < 2 ∨ timeSeconds (strSplit s ':') = none)

/-- Sample rows used to instantiate the universally quantified theorems on
concrete inputs. -/
def sampleRow1 : RawRow :=
  ⟨some "S003", some "2024-01-02", some "09:00", some "18:00", some "Normal"⟩

def sampleRow2 : RawRow :=
  ⟨some "S003", some "2024-01-01", some "09:00:00", some "18:00:30", some "Normal"⟩

def sampleBlankRow : RawRow :=
  ⟨some "", some "2024-01-01", some "09:00", some "18:00", some "Normal"⟩

def sampleUnknownRow : RawRow :=
  ⟨some "ZZZ", some "2024-01-01", some "09:00", some "18:00", some "Normal"⟩

def sampleDashRow : RawRow :=
  ⟨some "S003", some "2024-01-01", some "-", some "18:00", some "Normal"⟩

def sampleRows : List RawRow := [sampleRow1, sampleRow2]

def sampleCleanRows : List RawRow := [sampleRow1, sampleBlankRow]

def sampleDetails : EmpDetails := ⟨"TTQA003", "Abdul Shifas", "Pre-Sales"⟩

theorem floor_int_div_eq_ediv (p q : ℤ) (hq : 0 < q) :
    ⌊(p : ℚ) / (q : ℚ)⌋ = Int.ediv p q := by
  have hq' : (0 : ℚ) < (q : ℚ) := by exact_mod_cast hq
  have hpq : (p : ℚ) = (q : ℚ) * (Int.ediv p q : ℚ) + (Int.emod p q : ℚ) := by
    exact_mod_cast (Int.ediv_add_emod p q).symm
  have h0 : (0 : ℚ) ≤ (Int.emod p q : ℚ) := by
    exact_mod_cast Int.emod_nonneg p (ne_of_gt hq)
  have h1 : (Int.emod p q : ℚ) < (q : ℚ) := by
    exact_mod_cast Int.emod_lt_of_pos p hq
  have hx : (p : ℚ) / (q : ℚ) =
      (Int.ediv p q : ℚ) + (Int.emod p q : ℚ) / (q : ℚ) := by
    field_simp
    linarith [hpq]
  rw [Int.floor_eq_iff]
  constructor
  · rw [hx]
    have : (0 : ℚ) ≤ (Int.emod p q : ℚ) / (q : ℚ) := div_nonneg h0 (le_of_lt hq')
    linarith
  · rw [hx]
    have : (Int.emod p q : ℚ) / (q : ℚ) < 1 := (div_lt_one hq').mpr h1
    linarith

theorem frac_int_div (p q : ℤ) (hq : 0 < q) :
    (p : ℚ) / (q : ℚ) - (⌊(p : ℚ) / (q : ℚ)⌋ : ℚ) =
      (Int.emod p q : ℚ) / (q : ℚ) := by
  have hq' : (0 : ℚ) < (q : ℚ) := by exact_mod_cast hq
  have hpq : (p : ℚ) = (q : ℚ) * (Int.ediv p q : ℚ) + (Int.emod p q : ℚ) := by
    exact_mod_cast (Int.ediv_add_emod p q).symm
  rw [floor_int_div_eq_ediv p q hq]
  field_simp
  linarith [hpq]

theorem roundHalfEvenQ_int_div (p q : ℤ) (hq : 0 < q) :
    roundHalfEvenQ ((p : ℚ) / (q : ℚ)) = roundHalfEvenInt p q := by
  have hq' : (0 : ℚ) < (q : ℚ) := by exact_mod_cast hq
  have hfrac := frac_int_div p q hq
  have hfloor := floor_int_div_eq_ediv p q hq
  have hlt : ((p : ℚ) / (q : ℚ) - (⌊(p : ℚ) / (q : ℚ)⌋ : ℚ) < 1 / 2) ↔
      (2 * Int.emod p q < q) := by
    rw [hfrac, div_lt_div_iff₀ hq' (by norm_num : (0 : ℚ) < 2)]
    constructor
    · intro h
      exact_mod_cast (by linarith : ((2 : ℚ)) * (Int.emod p q : ℚ) < (q : ℚ))
    · intro h
      have : ((2 : ℚ)) * (Int.emod p q : ℚ) < (q : ℚ) := by exact_mod_cast h
      linarith
  have hgt : ((1 : ℚ) / 2 < (p : ℚ) / (q : ℚ) - (⌊(p : ℚ) / (q : ℚ)⌋ : ℚ)) ↔
      (q < 2 * Int.emod p q) := by
    rw [hfrac, div_lt_div_iff₀ (by norm_num : (0 : ℚ) < 2) hq']
    constructor
    · intro h
      exact_mod_cast (by linarith : ((q : ℚ)) < 2 * (Int.emod p q : ℚ))
    · intro h
      have : ((q : ℚ)) < 2 * (Int.emod p q : ℚ) := by exact_mod_cast h
      linarith
  unfold roundHalfEvenQ roundHalfEvenInt
  simp only [hfloor] at hlt hgt ⊢
  by_cases h1 : 2 * Int.emod p q < q
  · rw [if_pos (hlt.mpr h1), if_pos h1]
  · rw [if_neg (fun hc => h1 (hlt.mp hc)), if_neg h1]
    by_cases h2 : q < 2 * Int.emod p q
    · rw [if_pos (hgt.mpr h2), if_pos h2]
    · rw [if_neg (fun hc => h2 (hgt.mp hc)), if_neg h2]

theorem pyRound2_int_div (p q : ℤ) (hq : 0 < q) :
    pyRound2 ((p : ℚ) / (q : ℚ)) = (roundHalfEvenInt (100 * p) q : ℚ) / 100 := by
  have hq' : ((q : ℚ)) ≠ 0 := ne_of_gt (by exact_mod_cast hq)
  have hx : ((p : ℚ) / (q : ℚ)) * 100 = ((100 * p : ℤ) : ℚ) / ((q : ℤ) : ℚ) := by
    push_cast
    field_simp
    ring
  unfold pyRound2
  rw [hx, roundHalfEvenQ_int_div (100 * p) q hq]

theorem timeSeconds_some_length {l : List String} {t : ℤ}
    (h : timeSeconds l = some t) : 2 ≤ l.length := by
  match l with
  | [] => simp [timeSeconds] at h
  | [p] => simp [timeSeconds] at h
  | p0 :: p1 :: rest => simp

/-- Evaluation of `calculate_hours` on inputs whose `H:M[:S]` fields
parse: the guards cannot fire, and the result is the rounded hour
difference together with the formatted difference. -/
theorem calculate_hours_parsed (ci co : String) (tin tout : ℤ)
    (hi : timeSeconds (strSplit ci ':') = some tin)
    (ho : timeSeconds (strSplit co ':') = some tout) :
    calculate_hours (some ci) (some co) =
      (pyRound2 (((tout - tin : ℤ) : ℚ) / 3600),
        fmt02 (Int.ediv (tout - tin) 3600) ++ ":" ++
          fmt02 (Int.ediv (Int.emod (tout - tin) 3600) 60) ++ ":" ++
          fmt02 (Int.emod (tout - tin) 60)) := by
  have hci1 : ci ≠ "-" := by
    intro hc
    rw [hc] at hi
    simp [show timeSeconds (strSplit "-" ':') = none from by decide] at hi
  have hci2 : ci ≠ "" := by
    intro hc
    rw [hc] at hi
    simp [show timeSeconds (strSplit "" ':') = none from by decide] at hi
  have hco1 : co ≠ "-" := by
    intro hc
    rw [hc] at ho
    simp [show timeSeconds (strSplit "-" ':') = none from by decide] at ho
  have hco2 : co ≠ "" := by
    intro hc
    rw [hc] at ho
    simp [show timeSeconds (strSplit "" ':') = none from by decide] at ho
  have hguard : ¬(ci = "-" ∨ co = "-" ∨ ci = "" ∨ co = "") := by
    rintro (h | h | h | h) <;> [exact hci1 h; exact hco1 h; exact hci2 h; exact hco2 h]
  have hlen : ¬((strSplit ci ':').length < 2 ∨ (strSplit co ':').length < 2) := by
    rintro (h | h)
    · exact absurd (timeSeconds_some_length hi) (by omega)
    · exact absurd (timeSeconds_some_length ho) (by omega)
  simp only [calculate_hours, if_neg hguard, if_neg hlen, hi, ho]

theorem listLTb_cons_cons (a b : Char) (as bs : List Char) :
    listLTb (a :: as) (b :: bs) =
      if a < b then true else if b < a then false else listLTb as bs := rfl

theorem listLTb_irrefl (l : List Char) : listLTb l l = false := by
  induction l with
  | nil => rfl
  | cons a as ih => simp [listLTb_cons_cons, lt_irrefl, ih]

theorem listLTb_trans {a b c : List Char}
    (h1 : listLTb a b = true) (h2 : listLTb b c = true) :
    listLTb a c = true := by
  induction a generalizing b c with
  | nil =>
    cases b with
    | nil => simp [listLTb] at h1
    | cons bh bt =>
      cases c with
      | nil => simp [listLTb] at h2
      | cons ch ct => simp [listLTb]
  | cons ah at' ih =>
    cases b with
    | nil => simp [listLTb] at h1
    | cons bh bt =>
      cases c with
      | nil => simp [listLTb] at h2
      | cons ch ct =>
        rw [listLTb_cons_cons] at h1 h2 ⊢
        rcases lt_trichotomy ah bh with hab | hab | hab
        · rcases lt_trichotomy bh ch with hbc | hbc | hbc
          · rw [if_pos (lt_trans hab hbc)]
          · rw [if_pos (hbc ▸ hab)]
          · rw [if_neg (lt_asymm hbc), if_pos hbc] at h2
            exact absurd h2 (by simp)
        · subst hab
          rw [if_neg (lt_irrefl ah), if_neg (lt_irrefl ah)] at h1
          rcases lt_trichotomy ah ch with h | h | h
          · rw [if_pos h]
          · subst h
            rw [if_neg (lt_irrefl ah), if_neg (lt_irrefl ah)] at h2 ⊢
            exact ih h1 h2
          · rw [if_neg (lt_asymm h), if_pos h] at h2
            exact absurd h2 (by simp)
        · rw [if_neg (lt_asymm hab), if_pos hab] at h1
          exact absurd h1 (by simp)

theorem listLTb_conn {a b : List Char}
    (h1 : listLTb a b = false) (h2 : listLTb b a = false) : a = b := by
  induction a generalizing b with
  | nil =>
    cases b with
    | nil => rfl
    | cons bh bt => simp [listLTb] at h1
  | cons ah at' ih =>
    cases b with
    | nil => simp [listLTb] at h2
    | cons bh bt =>
      rw [listLTb_cons_cons] at h1 h2
      rcases lt_trichotomy ah bh with hab | hab | hab
      · rw [if_pos hab] at h1
        exact absurd h1 (by simp)
      · subst hab
        rw [if_neg (lt_irrefl ah), if_neg (lt_irrefl ah)] at h1 h2
        rw [ih h1 h2]
      · rw [if_neg (lt_asymm hab), if_pos hab] at h2
        exact absurd h2 (by simp)

theorem optLE_total (x y : Option ℕ) : optLE x y = true ∨ optLE y x = true := by
  match x, y with
  | none, none => left; rfl
  | none, some _ => right; rfl
  | some _, none => left; rfl
  | some a, some b =>
    rcases Nat.le_total a b with h | h
    · left; simpa [optLE, Nat.ble_eq] using h
    · right; simpa [optLE, Nat.ble_eq] using h

theorem optLE_trans {x y z : Option ℕ}
    (h1 : optLE x y = true) (h2 : optLE y z = true) : optLE x z = true := by
  match x, y, z with
  | none, none, none => rfl
  | none, some _, none => rfl
  | some _, none, none => rfl
  | some _, some _, none => rfl
  | none, none, some _ => simp [optLE] at h2
  | none, some _, some _ => simp [optLE] at h1
  | some _, none, some _ => simp [optLE] at h2
  | some a, some b, some c =>
    simp only [optLE, Nat.ble_eq] at h1 h2 ⊢
    omega

theorem reportLE_total (a b : OutRow) : reportLE a b ∨ reportLE b a := by
  by_cases h1 : listLTb a.emp_no.data b.emp_no.data = true
  · exact Or.inl (Or.inl h1)
  by_cases h2 : listLTb b.emp_no.data a.emp_no.data = true
  · exact Or.inr (Or.inl h2)
  have he : a.emp_no = b.emp_no :=
    congrArg String.mk
      (listLTb_conn (Bool.not_eq_true _ ▸ h1) (Bool.not_eq_true _ ▸ h2))
  rcases optLE_total (dateKey a) (dateKey b) with h | h
  · exact Or.inl (Or.inr ⟨he, h⟩)
  · exact Or.inr (Or.inr ⟨he.symm, h⟩)

theorem reportLE_trans {a b c : OutRow}
    (h1 : reportLE a b) (h2 : reportLE b c) : reportLE a c := by
  rcases h1 with h1 | ⟨he1, hd1⟩
  · rcases h2 with h2 | ⟨he2, hd2⟩
    · exact Or.inl (listLTb_trans h1 h2)
    · exact Or.inl (he2 ▸ h1)
  · rcases h2 with h2 | ⟨he2, hd2⟩
    · exact Or.inl (he1 ▸ h2)
    · exact Or.inr ⟨he1.trans he2, optLE_trans hd1 hd2⟩

theorem digitChar_isDigit {n : ℕ} (h : n < 10) : (digitChar n).isDigit = true := by
  interval_cases n <;> decide

theorem natDigsAux_digits :
    ∀ fuel n c, c ∈ natDigsAux fuel n → c.isDigit = true := by
  intro fuel
  induction fuel with
  | zero => intro n c h; simp [natDigsAux] at h
  | succ f ih =>
    intro n c h
    by_cases hn : n < 10
    · rw [natDigsAux, if_pos hn] at h
      rw [List.mem_singleton.mp h]
      exact digitChar_isDigit hn
    · rw [natDigsAux, if_neg hn] at h
      rcases List.mem_append.mp h with h' | h'
      · exact ih _ _ h'
      · rw [List.mem_singleton.mp h']
        exact digitChar_isDigit (Nat.mod_lt n (by omega))

theorem natDigs_digits (n : ℕ) : ∀ c ∈ natDigs n, c.isDigit = true :=
  fun c hc => natDigsAux_digits (n + 1) n c hc

theorem zpad_mem {w : ℕ} {l : List Char} {c : Char} (h : c ∈ zpad w l) :
    c = '0' ∨ c ∈ l := by
  rcases List.mem_append.mp h with h' | h'
  · exact Or.inl (List.eq_of_mem_replicate h')
  · exact Or.inr h'

theorem fmt02_nonneg_digits {n : ℤ} (h : 0 ≤ n) :
    ∀ c ∈ (fmt02 n).data, c.isDigit = true := by
  intro c hc
  rw [fmt02, if_neg (not_lt.mpr h)] at hc
  rcases zpad_mem hc with h' | h'
  · rw [h']; decide
  · exact natDigs_digits _ c h'

theorem natDigs_ne_nil (n : ℕ) : natDigs n ≠ [] := by
  by_cases h : n < 10 <;> simp [natDigs, natDigsAux, h]

theorem fmt02_nonneg_ne_nil {n : ℤ} (h : 0 ≤ n) : (fmt02 n).data ≠ [] := by
  rw [fmt02, if_neg (not_lt.mpr h)]
  intro hc
  rcases List.append_eq_nil.mp hc with ⟨-, h2⟩
  exact natDigs_ne_nil _ h2

theorem calculate_hours_badtime_left (ci : Option String) (h : BadTime ci)
    (co : Option String) : calculate_hours ci co = (0, "00:00:00") := by
  rcases h with h | h | h | ⟨s, hs, hm⟩
  · subst h; cases co <;> rfl
  · subst h
    cases co with
    | none => rfl
    | some t => simp [calculate_hours]
  · subst h; cases co <;> rfl
  · subst hs
    cases co with
    | none => rfl
    | some t =>
      simp only [calculate_hours]
      by_cases g : s = "-" ∨ t = "-" ∨ s = "" ∨ t = ""
      · rw [if_pos g]
      · rw [if_neg g]
        rcases hm with hlen | hnone
        · rw [if_pos (Or.inl hlen)]
        · by_cases hl : (strSplit s ':').length < 2 ∨ (strSplit t ':').length < 2
          · rw [if_pos hl]
          · rw [if_neg hl]
            rcases hts : timeSeconds (strSplit t ':') with _ | v <;>
              simp [hnone, hts]

theorem calculate_hours_badtime_right (co : Option String) (h : BadTime co)
    (ci : Option String) : calculate_hours ci co = (0, "00:00:00") := by
  rcases h with h | h | h | ⟨s, hs, hm⟩
  · subst h; cases ci <;> rfl
  · subst h; cases ci with
    | none => rfl
    | some t => simp [calculate_hours]
  · subst h; cases ci with
    | none => rfl
    | some t => simp [calculate_hours]
  · subst hs
    cases ci with
    | none => rfl
    | some t =>
      simp only [calculate_hours]
      by_cases g : t = "-" ∨ s = "-" ∨ t = "" ∨ s = ""
      · rw [if_pos g]
      · rw [if_neg g]
        rcases hm with hlen | hnone
        · rw [if_pos (Or.inr hlen)]
        · by_cases hl : (strSplit t ':').length < 2 ∨ (strSplit s ':').length < 2
          · rw [if_pos hl]
          · rw [if_neg hl]
            rcases hts : timeSeconds (strSplit t ':') with _ | v <;>
              simp [hnone, hts]

/-- C1: for well-formed `H:M` or `H:M:S` time strings with check-out not
earlier than check-in, `calculate_hours` returns the pair of
`round(diff_seconds / 3600, 2)` and the signed second difference formatted
as zero-padded `HH:MM:SS`; in particular it maps `"09:00"`, `"18:00"` to
`(9.0, "09:00:00")`. -/
theorem C1_elapsed_wellformed (ci co : String) (tin tout : ℤ)
    (hlin : (strSplit ci ':').length = 2 ∨ (strSplit ci ':').length = 3)
    (hlout : (strSplit co ':').length = 2 ∨ (strSplit co ':').length = 3)
    (hi : timeSeconds (strSplit ci ':') = some tin)
    (ho : timeSeconds (strSplit co ':') = some tout)
    (hle : tin ≤ tout) :
    calculate_hours (some ci) (some co) =
      (pyRound2 (((tout - tin : ℤ) : ℚ) / 3600),
        fmt02 (Int.ediv (tout - tin) 3600) ++ ":" ++
          fmt02 (Int.ediv (Int.emod (tout - tin) 3600) 60) ++ ":" ++
          fmt02 (Int.emod (tout - tin) 60)) ∧
      calculate_hours (some "09:00") (some "18:00") = (9, "09:00:00") := by
  constructor
  · exact calculate_hours_parsed ci co tin tout hi ho
  · rw [calculate_hours_parsed "09:00" "18:00" 32400 64800 (by decide) (by decide)]
    have e1 : pyRound2 (((64800 - 32400 : ℤ) : ℚ) / 3600) = 9 := by
      rw [show ((64800 - 32400 : ℤ) : ℚ) = ((32400 : ℤ) : ℚ) by norm_num,
        show ((3600 : ℚ)) = ((3600 : ℤ) : ℚ) by norm_num,
        pyRound2_int_div 32400 3600 (by norm_num),
        show roundHalfEvenInt (100 * 32400) 3600 = 900 from by decide]
      norm_num
    rw [e1]
    constructor

/-- C1 witness: the theorem instantiated at `"09:00"`, `"18:00"`. -/
theorem C1_elapsed_wellformed_witness :
    calculate_hours (some "09:00") (some "18:00") =
      (pyRound2 (((64800 - 32400 : ℤ) : ℚ) / 3600),
        fmt02 (Int.ediv (64800 - 32400) 3600) ++ ":" ++
          fmt02 (Int.ediv (Int.emod (64800 - 32400) 3600) 60) ++ ":" ++
          fmt02 (Int.emod (64800 - 32400) 60)) ∧
      calculate_hours (some "09:00") (some "18:00") = (9, "09:00:00") :=
  C1_elapsed_wellformed "09:00" "18:00" 32400 64800 (Or.inl (by decide))
    (Or.inl (by decide)) (by decide) (by decide) (by decide)

/-- C2: when either time cell is missing (not a string), empty, the `"-"`
sentinel, or malformed (fewer than two colon-separated parts or a part that
does not parse as an integer), `calculate_hours` returns exactly
`(0.0, "00:00:00")` without error; in particular on `"-"`, `"18:00"`. -/
theorem C2_elapsed_fails_soft (check_in check_out : Option String)
    (h : BadTime check_in ∨ BadTime check_out) :
    calculate_hours check_in check_out = (0, "00:00:00") ∧
      calculate_hours (some "-") (some "18:00") = (0, "00:00:00") := by
  constructor
  · rcases h with h | h
    · exact calculate_hours_badtime_left _ h _
    · exact calculate_hours_badtime_right _ h _
  · rfl

/-- C2 witness: the theorem instantiated at `"-"`, `"18:00"`. -/
theorem C2_elapsed_fails_soft_witness :
    calculate_hours (some "-") (some "18:00") = (0, "00:00:00") ∧
      calculate_hours (some "-") (some "18:00") = (0, "00:00:00") :=
  C2_elapsed_fails_soft (some "-") (some "18:00")
    (Or.inl (Or.inr (Or.inr (Or.inl rfl))))

/-- C3 counterexample: for the successfully parsed pair `"18:00"`,
`"09:00"` (check-out earlier than check-in) the formatted component is
`"-9:00:00"`, which is not a non-negative `H:M:S` duration. -/
theorem C3_cex :
    calculate_hours (some "18:00") (some "09:00") = (-(9 : ℚ), "-9:00:00") ∧
      ¬ NonNegHMS "-9:00:00" := by
  constructor
  · rw [calculate_hours_parsed "18:00" "09:00" 64800 32400 (by decide) (by decide)]
    have e1 : pyRound2 (((32400 - 64800 : ℤ) : ℚ) / 3600) = -(9 : ℚ) := by
      rw [show ((32400 - 64800 : ℤ) : ℚ) = ((-32400 : ℤ) : ℚ) by norm_num,
        show ((3600 : ℚ)) = ((3600 : ℤ) : ℚ) by norm_num,
        pyRound2_int_div (-32400) 3600 (by norm_num),
        show roundHalfEvenInt (100 * -32400) 3600 = -900 from by decide]
      norm_num
    rw [e1]
    constructor
  · decide

/-- C3 (amended): for every pair of well-formed time strings that
`calculate_hours` successfully parses, the formatted component is a
non-negative `H:M:S` duration whenever check-out is not earlier than
check-in; when check-out is earlier the hours field is rendered negative
(see the counterexample). -/
theorem C3_amended (ci co : String) (tin tout : ℤ)
    (hi : timeSeconds (strSplit ci ':') = some tin)
    (ho : timeSeconds (strSplit co ':') = some tout)
    (hle : tin ≤ tout) :
    NonNegHMS (calculate_hours (some ci) (some co)).2 := by
  rw [calculate_hours_parsed ci co tin tout hi ho]
  have hd0 : (0 : ℤ) ≤ tout - tin := by omega
  have h1 : 0 ≤ Int.ediv (tout - tin) 3600 := Int.ediv_nonneg hd0 (by norm_num)
  have h2 : 0 ≤ Int.ediv (Int.emod (tout - tin) 3600) 60 :=
    Int.ediv_nonneg (Int.emod_nonneg _ (by norm_num)) (by norm_num)
  have h3 : 0 ≤ Int.emod (tout - tin) 60 := Int.emod_nonneg _ (by norm_num)
  constructor
  · simp only [String.data_append]
    intro hc
    exact fmt02_nonneg_ne_nil h1
      (List.append_eq_nil.mp (List.append_eq_nil.mp
        (List.append_eq_nil.mp (List.append_eq_nil.mp hc).1).1).1).1
  · intro c hc
    simp only [String.data_append] at hc
    rcases List.mem_append.mp hc with hc | hc
    rotate_left
    · exact Or.inl (fmt02_nonneg_digits h3 c hc)
    rcases List.mem_append.mp hc with hc | hc
    rotate_left
    · exact Or.inr (List.mem_singleton.mp hc)
    rcases List.mem_append.mp hc with hc | hc
    rotate_left
    · exact Or.inl (fmt02_nonneg_digits h2 c hc)
    rcases List.mem_append.mp hc with hc | hc
    · exact Or.inl (fmt02_nonneg_digits h1 c hc)
    · exact Or.inr (List.mem_singleton.mp hc)

/-- C3 witness: the amended theorem instantiated at `"09:00"`, `"18:00"`. -/
theorem C3_amended_witness :
    NonNegHMS (calculate_hours (some "09:00") (some "18:00")).2 :=
  C3_amended "09:00" "18:00" 32400 64800 (by decide) (by decide) (by decide)

/-- C5: for every integer `total_minutes`, `calculate_extra_minutes` with
the default 540-minute standard equals `max 0 (total_minutes - 540)`; in
particular 540 maps to 0 and 600 maps to 60. -/
theorem C5_extra_minutes :
    (∀ total_minutes : ℤ,
      calculate_extra_minutes total_minutes = max 0 (total_minutes - 540)) ∧
      calculate_extra_minutes 540 = 0 ∧ calculate_extra_minutes 600 = 60 := by
  refine ⟨fun t => ?_, by decide, by decide⟩
  unfold calculate_extra_minutes
  split <;> omega

/-- C4 counterexample: two distinct directory entries (employee numbers
TTQA224 and TTQA272) share the person identifier "TTQ219", so `person_id`
is not a unique key of the embedded employee directory. -/
theorem C4_cex :
    (employee_db.filter (fun r => r.person_id = some "TTQ219")).map
      (fun r => r.employee_id) = ["TTQA224", "TTQA272"] := by decide

/-- C4 (amended): `person_id` is a unique key of the embedded directory
except for "TTQ219", which exactly two entries share; the identifier →
details dict still resolves every present identifier to exactly one details
record from the directory, "TTQ219" resolving to the later entry
(TTQA272). -/
theorem C4_amended :
    directoryKeys.filter (fun id => directoryKeys.count id ≠ 1) =
      ["TTQ219", "TTQ219"] ∧
    employee_mapping "TTQ219" =
      some ⟨"TTQA272", "Nawaz Shereef Kareem", "Procurement"⟩ ∧
    ∀ id ed, employee_mapping id = some ed → (id, ed) ∈ mappingEntries := by
  refine ⟨by decide, by decide, fun id ed h => ?_⟩
  unfold employee_mapping at h
  cases hf : mappingEntries.reverse.find? (fun kv => kv.1 = id) with
  | none => rw [hf] at h; simp at h
  | some kv =>
    rw [hf] at h
    simp only [Option.map_some'] at h
    have hp' := @List.find?_some _ (fun kv => decide (kv.1 = id)) kv _ hf
    have hp : kv.1 = id := of_decide_eq_true hp'
    have hm : kv ∈ mappingEntries.reverse := List.mem_of_find?_eq_some hf
    rw [List.mem_reverse] at hm
    have : kv = (id, ed) := by
      rcases Option.some.inj h with rfl
      exact Prod.ext hp rfl
    rw [← this]
    exact hm

/-- C4 witness: the resolution part of the amended theorem instantiated at
"TTQ219". -/
theorem C4_amended_witness :
    ("TTQ219", (⟨"TTQA272", "Nawaz Shereef Kareem", "Procurement"⟩ : EmpDetails)) ∈
      mappingEntries :=
  C4_amended.2.2 "TTQ219" ⟨"TTQA272", "Nawaz Shereef Kareem", "Procurement"⟩
    C4_amended.2.1

theorem keepRow_iff (r : RawRow) : keepRow r = true ↔ keepPred r := by
  unfold keepRow keepPred
  cases hp : r.person_id with
  | none => simp
  | some pid =>
    cases hd : r.date with
    | none => simp
    | some d => simp [and_assoc]

/-- C6: the sanitizer is a pure filter-and-normalize: a row appears in
the output iff it comes from an input row whose identifier and date are
present and non-blank after trimming and whose identifier does not contain
the header token, with a single leading quote-escape character stripped
from the identifier and no other field changed; every row with a blank
identifier fails the keep condition. -/
theorem C6_sanitizer (rows : List RawRow) (r : RawRow) :
    (r ∈ clean_report_data rows ↔
      ∃ r₀, r₀ ∈ rows ∧ keepPred r₀ ∧ r = normRow r₀) ∧
    (∀ r₀ : RawRow, ∀ pid, r₀.person_id = some pid → pyStrip pid = "" →
      ¬ keepPred r₀) ∧
    (∀ r₀ : RawRow, r₀.person_id = none → ¬ keepPred r₀) := by
  refine ⟨?_, ?_, ?_⟩
  · constructor
    · intro hm
      rcases List.mem_map.mp hm with ⟨r₀, hr₀, heq⟩
      rcases List.mem_filter.mp hr₀ with ⟨hmem, hkr⟩
      exact ⟨r₀, hmem, (keepRow_iff r₀).mp hkr, heq.symm⟩
    · rintro ⟨r₀, hmem, hkp, rfl⟩
      exact List.mem_map_of_mem _
        (List.mem_filter.mpr ⟨hmem, (keepRow_iff r₀).mpr hkp⟩)
  · rintro r₀ pid hp hblank ⟨pid', d', hp', hd', hne, -, -⟩
    rw [hp] at hp'
    rcases Option.some.inj hp' with rfl
    exact hne hblank
  · rintro r₀ hp ⟨pid', d', hp', -⟩
    rw [hp] at hp'
    exact Option.noConfusion hp'

/-- C6 witness: on a two-row input the valid row is kept (normalized) and
the blank-identifier row fails the keep condition. -/
theorem C6_sanitizer_witness :
    normRow sampleRow1 ∈ clean_report_data sampleCleanRows ∧
      ¬ keepPred sampleBlankRow :=
  ⟨(C6_sanitizer sampleCleanRows (normRow sampleRow1)).1.mpr
      ⟨sampleRow1, by simp [sampleCleanRows],
        ⟨"S003", "2024-01-02", rfl, rfl, by decide, by decide, by decide⟩, rfl⟩,
    (C6_sanitizer sampleCleanRows sampleBlankRow).2.1 sampleBlankRow "" rfl rfl⟩

/-- C7: a sanitized row whose trimmed person identifier has no directory
match contributes no output row and raises no error (the transform is
total); the number of emitted rows is exactly the number of
directory-matched rows, which is all a miss affects. -/
theorem C7_unmatched_dropped (r : RawRow)
    (h : employee_mapping (pyStrip (pyStr r.person_id)) = none) :
    (∀ rows₁ rows₂ : List RawRow,
      output_data (rows₁ ++ r :: rows₂) = output_data (rows₁ ++ rows₂)) ∧
    output_data [r] = [] ∧
    ∀ rows : List RawRow, (output_data rows).length =
      (rows.filter (fun x =>
        (employee_mapping (pyStrip (pyStr x.person_id))).isSome)).length := by
  refine ⟨fun rows₁ rows₂ => ?_, ?_, fun rows => ?_⟩
  · simp [output_data, List.filterMap_append, List.filterMap_cons, h]
  · simp [output_data, List.filterMap_cons, h]
  · induction rows with
    | nil => rfl
    | cons x xs ih =>
      simp only [output_data, List.filterMap_cons, List.filter_cons] at *
      cases hx : employee_mapping (pyStrip (pyStr x.person_id)) with
      | none => simp [hx] at *; exact ih
      | some ed => simp [hx] at *; exact ih

/-- C7 witness: the theorem instantiated on a row with unknown identifier
"ZZZ". -/
theorem C7_unmatched_dropped_witness : output_data [sampleUnknownRow] = [] :=
  (C7_unmatched_dropped sampleUnknownRow (by decide)).2.1

/-- C9: extra minutes are computed from the two-decimal rounded hours value
(`total_minutes = round(round(diff_seconds / 3600, 2) * 60)`), not from the
exact second difference: for check-in "09:00:00" and check-out "18:00:30"
the pipeline computes hours 9.01, total minutes 541 and extra minutes 1,
although the exact excess over the 540-minute baseline is only 30
seconds. -/
theorem C9_rounded_extra_minutes :
    (∀ hours : ℚ, calculate_total_minutes hours = roundHalfEvenQ (hours * 60)) ∧
    calculate_hours (some "09:00:00") (some "18:00:30") =
      (901 / 100, "09:00:30") ∧
    calculate_total_minutes (901 / 100) = 541 ∧
    calculate_extra_minutes 541 = 1 ∧
    timeSeconds (strSplit "09:00:00" ':') = some 32400 ∧
    timeSeconds (strSplit "18:00:30" ':') = some 64830 ∧
    (64830 : ℤ) - 32400 - 540 * 60 = 30 := by
  refine ⟨fun h => rfl, ?_, ?_, by decide, by decide, by decide, by decide⟩
  · rw [calculate_hours_parsed "09:00:00" "18:00:30" 32400 64830
      (by decide) (by decide)]
    have e1 : pyRound2 (((64830 - 32400 : ℤ) : ℚ) / 3600) = 901 / 100 := by
      rw [show ((64830 - 32400 : ℤ) : ℚ) = ((32430 : ℤ) : ℚ) by norm_num,
        show ((3600 : ℚ)) = ((3600 : ℤ) : ℚ) by norm_num,
        pyRound2_int_div 32430 3600 (by norm_num),
        show roundHalfEvenInt (100 * 32430) 3600 = 901 from by decide]
      norm_num
    rw [e1]
    constructor
  · unfold calculate_total_minutes
    rw [show ((901 : ℚ) / 100) * 60 = ((54060 : ℤ) : ℚ) / ((100 : ℤ) : ℚ) by
        norm_num,
      roundHalfEvenQ_int_div 54060 100 (by norm_num)]
    decide

theorem zero_hours_extra :
    intStr (calculate_extra_minutes (calculate_total_minutes 0)) = "0" := by
  have h0 : calculate_total_minutes 0 = 0 := by
    unfold calculate_total_minutes roundHalfEvenQ
    norm_num
  rw [h0]
  decide

/-- C10: for a matched record whose raw check-in (respectively check-out)
cell is the sentinel "-", the emitted row has the empty string in TIME IN
(respectively TIME OUT) while TOTAL HOURS is "00:00:00" and EXTRA MINUTES
is "0"; any non-sentinel check-in/check-out cell is carried into TIME
IN/TIME OUT unchanged. -/
theorem C10_sentinel_blanks (r : RawRow) (ed : EmpDetails) :
    (r.check_in = some "-" →
      (mkOutRow r ed).time_in = some "" ∧
      (mkOutRow r ed).total_hours = "00:00:00" ∧
      (mkOutRow r ed).extra_minutes = "0") ∧
    (r.check_out = some "-" →
      (mkOutRow r ed).time_out = some "" ∧
      (mkOutRow r ed).total_hours = "00:00:00" ∧
      (mkOutRow r ed).extra_minutes = "0") ∧
    (r.check_in ≠ some "-" → (mkOutRow r ed).time_in = r.check_in) ∧
    (r.check_out ≠ some "-" → (mkOutRow r ed).time_out = r.check_out) := by
  refine ⟨fun h => ?_, fun h => ?_, fun h => ?_, fun h => ?_⟩
  · have hch := calculate_hours_badtime_left r.check_in
      (Or.inr (Or.inr (Or.inl h))) r.check_out
    simp only [mkOutRow, hch]
    exact ⟨if_pos h, trivial, zero_hours_extra⟩
  · have hch := calculate_hours_badtime_right r.check_out
      (Or.inr (Or.inr (Or.inl h))) r.check_in
    simp only [mkOutRow, hch]
    exact ⟨if_pos h, trivial, zero_hours_extra⟩
  · simp only [mkOutRow]
    exact if_neg h
  · simp only [mkOutRow]
    exact if_neg h

/-- C10 witness: the theorem instantiated on a row with check-in "-" and
check-out "18:00". -/
theorem C10_sentinel_blanks_witness :
    ((mkOutRow sampleDashRow sampleDetails).time_in = some "" ∧
      (mkOutRow sampleDashRow sampleDetails).total_hours = "00:00:00" ∧
      (mkOutRow sampleDashRow sampleDetails).extra_minutes = "0") ∧
    (mkOutRow sampleDashRow sampleDetails).time_out = some "18:00" :=
  ⟨(C10_sentinel_blanks sampleDashRow sampleDetails).1 rfl,
    (C10_sentinel_blanks sampleDashRow sampleDetails).2.2.2 (by decide)⟩

/-- C8: the report emitted by the transform is sorted by employee number
and then by parsed date: of two rows of the same employee with parseable
dates, the earlier-dated one comes first, and each employee's rows are
contiguous. -/
theorem C8_report_sorted (rows : List RawRow)
    (i j : Fin (generate_report rows).length) (hij : i < j) :
    (((generate_report rows).get i).emp_no =
        ((generate_report rows).get j).emp_no →
      ∀ di dj, dateKey ((generate_report rows).get i) = some di →
        dateKey ((generate_report rows).get j) = some dj → di ≤ dj) ∧
    (∀ k : Fin (generate_report rows).length, i < k → k < j →
      ((generate_report rows).get i).emp_no =
        ((generate_report rows).get j).emp_no →
      ((generate_report rows).get k).emp_no =
        ((generate_report rows).get i).emp_no) := by
  have hsorted : List.Sorted reportLE (generate_report rows) := by
    unfold generate_report
    exact @List.sorted_insertionSort _ reportLE _ ⟨reportLE_total⟩
      ⟨fun a b c h1 h2 => reportLE_trans h1 h2⟩ _
  constructor
  · intro hemp di dj hdi hdj
    rcases hsorted.rel_get_of_lt hij with hlt | ⟨-, hle⟩
    · rw [hemp, listLTb_irrefl] at hlt
      exact absurd hlt (by simp)
    · rw [hdi, hdj] at hle
      simpa [optLE, Nat.ble_eq] using hle
  · intro k hik hkj hemp
    rcases hsorted.rel_get_of_lt hik with h1 | ⟨he1, -⟩
    · rcases hsorted.rel_get_of_lt hkj with h2 | ⟨he2, -⟩
      · have h3 := listLTb_trans h1 h2
        rw [hemp, listLTb_irrefl] at h3
        exact absurd h3 (by simp)
      · rw [he2, ← hemp] at h1
        rw [listLTb_irrefl] at h1
        exact absurd h1 (by simp)
    · exact he1.symm

/-- C8 witness: on two rows of employee TTQA003 dated 2024-01-02 and
2024-01-01 the sorted report puts the earlier date key first. -/
theorem C8_report_sorted_witness : (1036321 : ℕ) ≤ 1036322 :=
  (C8_report_sorted sampleRows ⟨0, by decide⟩ ⟨1, by decide⟩ (by decide)).1
    (by decide) 1036321 1036322 (by decide) (by decide)
